import Mathlib

/-!
Shallow embedding of the `webex-skill` scripts (`scripts/fetch-unread.mjs`,
`scripts/send-message.mjs`) and proofs about their room/message pipeline.

JavaScript values are modelled explicitly:
* a date-bearing field is a `DateField`: absent/null/empty (all falsy in the
  code's checks), a non-empty string that `new Date` fails to parse, or a
  string parsing to a finite millisecond timestamp;
* nullable strings are `Option String`, with the empty string also falsy;
* per-room network fetches are passed in as `Except` results, so the
  failure-isolation branches of the code become explicit.
-/

namespace WebexSkill

/-- A date-valued field as the scripts see it.  `missing` covers `undefined`,
`null` and `""` (all falsy for `toTs` and for `||` fallbacks); `invalid`
is a non-empty string `new Date` cannot parse (truthy, but timestamp `NaN`);
`valid s t` is a string parsing to the finite millisecond timestamp `t`. -/
inductive DateField where
  | missing : DateField
  | invalid : String → DateField
  | valid : String → Int → DateField
deriving DecidableEq, Repr

/-- `toTs` from `fetch-unread.mjs`: falsy values map to `0`, unparseable
dates (`NaN` from `getTime()`) map to `0`, otherwise the parsed millisecond
timestamp. -/
def toTs : DateField → Int
  | .missing => 0
  | .invalid _ => 0
  | .valid _ t => t

/-- JavaScript `a || b` on date fields (only a falsy `a` falls through). -/
def dateOr : DateField → DateField → DateField
  | .missing, b => b
  | .invalid s, _ => .invalid s
  | .valid s t, _ => .valid s t

/-- JavaScript `a || b` where `a` is a nullable string and `b` a string:
`null`, `undefined` and `""` fall through to `b`. -/
def strOr (a : Option String) (b : String) : String :=
  match a with
  | some s => if s = "" then b else s
  | none => b

/-- JavaScript truthiness of a nullable string (`!value` is the negation). -/
def strTruthy : Option String → Bool
  | none => false
  | some s => decide (s ≠ "")

/-- A raw room record as returned by the provider, with the aliased field
names `normalizeRoom` consults, plus a provider-supplied `isUnread` flag
(which the code never reads). -/
structure RawRoom where
  id : String
  title : Option String
  type : Option String
  roomType : Option String
  lastActivityDate : DateField
  lastActivity : DateField
  lastSeenDate : DateField
  lastSeenActivityDate : DateField
  isUnread : Bool
deriving DecidableEq, Repr

/-- A normalized room, the output shape of `normalizeRoom`. -/
structure Room where
  id : String
  title : String
  type : String
  lastActivityDate : DateField
  lastSeenDate : DateField
  isUnread : Bool
deriving DecidableEq, Repr

/-- `normalizeRoom` from `fetch-unread.mjs`:
`lastActivityDate = room.lastActivityDate || room.lastActivity || null`,
`lastSeenDate = room.lastSeenDate || room.lastSeenActivityDate || null`,
`title = room.title || room.id`, `type = room.type || room.roomType || 'group'`,
`isUnread = toTs(lastActivityDate) > toTs(lastSeenDate)`. -/
def normalizeRoom (room : RawRoom) : Room :=
  let lastActivityDate := dateOr room.lastActivityDate room.lastActivity
  let lastSeenDate := dateOr room.lastSeenDate room.lastSeenActivityDate
  { id := room.id
    title := strOr room.title room.id
    type := strOr room.type (strOr room.roomType "group")
    lastActivityDate := lastActivityDate
    lastSeenDate := lastSeenDate
    isUnread := decide (toTs lastSeenDate < toTs lastActivityDate) }

/-- C2: the normalized room's `isUnread` equals
`ts(lastActivityDate) > ts(lastSeenDate)` over the normalized (alias-resolved)
dates, `ts` sends missing/null/unparseable dates to `0`, and the flag is
recomputed — changing the provider-supplied `isUnread` field of the raw
record does not change the normalizer's output at all. -/
theorem normalizeRoom_isUnread_recomputed (raw : RawRoom) :
    ((normalizeRoom raw).isUnread =
        decide (toTs (normalizeRoom raw).lastSeenDate <
          toTs (normalizeRoom raw).lastActivityDate))
    ∧ toTs .missing = 0
    ∧ (∀ s, toTs (.invalid s) = 0)
    ∧ (∀ b : Bool, normalizeRoom { raw with isUnread := b } = normalizeRoom raw) :=
  ⟨rfl, rfl, fun _ => rfl, fun _ => rfl⟩

/-- C10: the normalizer's fallbacks fire on any falsy value, not only
absence — a `null`/absent/empty `title` yields `title = id`; a falsy `type`
falls back to `roomType` (itself subject to the same falsiness rule) and
then `"group"`, so an empty-string `type` with a falsy `roomType` also
normalizes to `"group"`. -/
theorem normalizeRoom_falsy_fallbacks (raw : RawRoom)
    (ht : raw.title = none ∨ raw.title = some "") :
    (normalizeRoom raw).title = raw.id
    ∧ ((raw.type = none ∨ raw.type = some "") →
        (normalizeRoom raw).type = strOr raw.roomType "group")
    ∧ ((raw.type = none ∨ raw.type = some "") →
        (raw.roomType = none ∨ raw.roomType = some "") →
        (normalizeRoom raw).type = "group") := by
  refine ⟨?_, ?_, ?_⟩
  · rcases ht with h | h <;> simp [normalizeRoom, strOr, h]
  · rintro (h | h) <;> simp [normalizeRoom, strOr, h]
  · rintro (h | h) (h2 | h2) <;> simp [normalizeRoom, strOr, h, h2]

/-- Witness for C10 at a concrete raw record with empty-string `title`,
empty-string `type` and absent `roomType`. -/
theorem normalizeRoom_falsy_fallbacks_witness :
    ((some "" : Option String) = none ∨ (some "" : Option String) = some "")
    ∧ ((normalizeRoom
        { id := "roomid1", title := some "", type := some "", roomType := none,
          lastActivityDate := .missing, lastActivity := .missing,
          lastSeenDate := .missing, lastSeenActivityDate := .missing,
          isUnread := true }).title = "roomid1"
      ∧ (((some "" : Option String) = none ∨ (some "" : Option String) = some "") →
          (normalizeRoom
            { id := "roomid1", title := some "", type := some "", roomType := none,
              lastActivityDate := .missing, lastActivity := .missing,
              lastSeenDate := .missing, lastSeenActivityDate := .missing,
              isUnread := true }).type = strOr none "group")
      ∧ (((some "" : Option String) = none ∨ (some "" : Option String) = some "") →
          ((none : Option String) = none ∨ (none : Option String) = some "") →
          (normalizeRoom
            { id := "roomid1", title := some "", type := some "", roomType := none,
              lastActivityDate := .missing, lastActivity := .missing,
              lastSeenDate := .missing, lastSeenActivityDate := .missing,
              isUnread := true }).type = "group")) :=
  ⟨Or.inr rfl,
   normalizeRoom_falsy_fallbacks
     { id := "roomid1", title := some "", type := some "", roomType := none,
       lastActivityDate := .missing, lastActivity := .missing,
       lastSeenDate := .missing, lastSeenActivityDate := .missing,
       isUnread := true } (Or.inr rfl)⟩

/-- A message record as fetched per room.  Nullable/optional fields are
`Option`s (defaulting to absent); `created` is a date field (fed to `toTs`);
`mentionedPeople` is either absent (`none`, failing the code's
`Array.isArray` check) or a list of identifiers. -/
structure Message where
  id : String
  roomId : Option String := none
  personId : Option String := none
  roomType : Option String := none
  personEmail : Option String := none
  created : DateField := .missing
  updated : Option String := none
  text : Option String := none
  markdown : Option String := none
  html : Option String := none
  mentionedPeople : Option (List String) := none
deriving DecidableEq, Repr

/-- `isUnreadMessage` from `fetch-unread.mjs`: unread iff
`toTs(message.created) > lastSeenTs` and `message.personId !== meId`. -/
def isUnreadMessage (message : Message) (lastSeenTs : Int) (meId : Option String) : Bool :=
  if toTs message.created ≤ lastSeenTs then false
  else decide (message.personId ≠ meId)

/-- The comparator `(a, b) => toTs(a.created) - toTs(b.created)` used to sort
unread messages ascending by `created`. -/
def createdLe (a b : Message) : Bool :=
  decide (toTs a.created ≤ toTs b.created)

/-- `getUnreadMessages` from `fetch-unread.mjs`, with the page of fetched
messages passed in as data: filter by `isUnreadMessage` against the room's
`lastSeenDate` timestamp, then sort ascending by `created`. -/
def getUnreadMessages (fetched : List Message) (room : Room) (meId : Option String) :
    List Message :=
  let lastSeenTs := toTs room.lastSeenDate
  (fetched.filter (fun message => isUnreadMessage message lastSeenTs meId)).mergeSort createdLe

/-- `roomMentionsMe` from `fetch-unread.mjs`: `false` for a falsy `meId` or a
non-array `mentionedPeople`; otherwise whether some unread message's
`mentionedPeople` includes `meId`. -/
def roomMentionsMe (unreadMessages : List Message) (meId : Option String) : Bool :=
  if !(strTruthy meId) then false
  else unreadMessages.any (fun m =>
    match m.mentionedPeople with
    | some ps => ps.contains (meId.getD "")
    | none => false)

/-- The per-message mention check agrees with membership in `mentionedPeople`. -/
theorem mentionMatch_iff (m : Message) (i : String) :
    (match m.mentionedPeople with
      | some ps => ps.contains i
      | none => false) = true ↔ ∃ ps, m.mentionedPeople = some ps ∧ i ∈ ps := by
  cases h : m.mentionedPeople with
  | none => simp
  | some ps => simp [List.contains, List.elem_iff]

/-- `roomMentionsMe` holds iff some message's `mentionedPeople` contains the
(nonempty, present) current-user id. -/
theorem roomMentionsMe_iff (msgs : List Message) (meId : Option String)
    (hid : meId ≠ some "") :
    (roomMentionsMe msgs meId = true ↔
      ∃ m ∈ msgs, ∃ i, meId = some i ∧ ∃ ps, m.mentionedPeople = some ps ∧ i ∈ ps) := by
  cases meId with
  | none =>
      constructor
      · intro h
        simp [roomMentionsMe, strTruthy] at h
      · rintro ⟨m, hm, i, hi, _⟩
        exact Option.noConfusion hi
  | some i =>
      have hi : i ≠ "" := fun h => hid (by rw [h])
      have h1 : roomMentionsMe msgs (some i) =
          msgs.any (fun m => match m.mentionedPeople with
            | some ps => ps.contains i
            | none => false) := by
        simp [roomMentionsMe, strTruthy, hi]
      rw [h1, List.any_eq_true]
      constructor
      · rintro ⟨m, hm, hmatch⟩
        exact ⟨m, hm, i, rfl, (mentionMatch_iff m i).mp hmatch⟩
      · rintro ⟨m, hm, j, hj, hps⟩
        have hji := Option.some.inj hj
        subst hji
        exact ⟨m, hm, (mentionMatch_iff m i).mpr hps⟩

/-- C3: the messages attached to a room are exactly (as a permutation) the
fetched ones created strictly after the room's `lastSeenDate` timestamp and
not authored by the current user, sorted ascending by `created`; and (for a
current-user id that is not the empty string, the one degenerate falsy case)
`mentionedMe` holds iff some retained message's `mentionedPeople` contains
that id. -/
theorem getUnreadMessages_spec (fetched : List Message) (room : Room)
    (meId : Option String) (hid : meId ≠ some "") :
    (getUnreadMessages fetched room meId).Perm
      (fetched.filter (fun m =>
        decide (toTs room.lastSeenDate < toTs m.created) && decide (m.personId ≠ meId)))
    ∧ (getUnreadMessages fetched room meId).Pairwise
        (fun a b => toTs a.created ≤ toTs b.created)
    ∧ (roomMentionsMe (getUnreadMessages fetched room meId) meId = true ↔
        ∃ m ∈ getUnreadMessages fetched room meId,
          ∃ i, meId = some i ∧ ∃ ps, m.mentionedPeople = some ps ∧ i ∈ ps) := by
  refine ⟨?_, ?_, roomMentionsMe_iff _ _ hid⟩
  · have hpred : (fun message => isUnreadMessage message (toTs room.lastSeenDate) meId) =
        (fun m => decide (toTs room.lastSeenDate < toTs m.created) &&
          decide (m.personId ≠ meId)) := by
      funext m
      simp only [isUnreadMessage]
      split
      · next h => simp [show ¬ (toTs room.lastSeenDate < toTs m.created) from not_lt.mpr h]
      · next h => simp [lt_of_not_le h]
    simpa [getUnreadMessages, hpred] using
      List.mergeSort_perm (fetched.filter (fun m =>
        decide (toTs room.lastSeenDate < toTs m.created) && decide (m.personId ≠ meId)))
        createdLe
  · have hs := @List.sorted_mergeSort Message createdLe
      (fun a b c hab hbc => by
        simp only [createdLe, decide_eq_true_eq] at hab hbc ⊢
        exact le_trans hab hbc)
      (fun a b => by
        simp only [createdLe, Bool.or_eq_true, decide_eq_true_eq]
        exact le_total (toTs a.created) (toTs b.created))
      (fetched.filter (fun message => isUnreadMessage message (toTs room.lastSeenDate) meId))
    simp only [getUnreadMessages]
    exact hs.imp (fun h => by simpa [createdLe] using h)

/-- Concrete room for the C3 witness. -/
def roomC3 : Room :=
  { id := "r1", title := "r1", type := "direct",
    lastActivityDate := .valid "d3" 3000, lastSeenDate := .valid "ds" 1000,
    isUnread := true }

/-- Concrete fetched page for the C3 witness: one self-authored new message,
one foreign old message, one foreign new message mentioning the user. -/
def fetchedC3 : List Message :=
  [{ id := "m1", personId := some "me-id", personEmail := some "me@example.com",
     created := .valid "d1" 2000, text := some "t1" },
   { id := "m2", personId := some "p2", personEmail := some "a@example.com",
     created := .valid "d2" 500, text := some "t2" },
   { id := "m3", personId := some "p3", personEmail := some "b@example.com",
     created := .valid "d3" 3000, text := some "t3",
     mentionedPeople := some ["me-id"] }]

/-- Witness for C3 at the concrete room, page and current-user id above. -/
theorem getUnreadMessages_spec_witness :
    (some "me-id" : Option String) ≠ some ""
    ∧ ((getUnreadMessages fetchedC3 roomC3 (some "me-id")).Perm
        (fetchedC3.filter (fun m =>
          decide (toTs roomC3.lastSeenDate < toTs m.created) &&
            decide (m.personId ≠ some "me-id")))
      ∧ (getUnreadMessages fetchedC3 roomC3 (some "me-id")).Pairwise
          (fun a b => toTs a.created ≤ toTs b.created)
      ∧ (roomMentionsMe (getUnreadMessages fetchedC3 roomC3 (some "me-id"))
            (some "me-id") = true ↔
          ∃ m ∈ getUnreadMessages fetchedC3 roomC3 (some "me-id"),
            ∃ i, (some "me-id" : Option String) = some i ∧
              ∃ ps, m.mentionedPeople = some ps ∧ i ∈ ps)) :=
  ⟨by decide, getUnreadMessages_spec fetchedC3 roomC3 (some "me-id") (by decide)⟩

/-- A room carrying its resolved unread messages, as produced by
`attachUnreadMessages` (`{...room, unreadMessages, unreadMessageCount,
mentionedMe}`). -/
structure RoomU extends Room where
  unreadMessages : List Message
  unreadMessageCount : Nat
  mentionedMe : Bool
deriving DecidableEq, Repr

/-- `BOT_EMAIL_SUFFIX` from `fetch-unread.mjs`. -/
def BOT_EMAIL_SUFFIX : String := "@webex.bot"

/-- JavaScript `String.prototype.endsWith`, modelled over character lists. -/
def jsEndsWith (s sfx : String) : Bool :=
  sfx.toList.isSuffixOf s.toList

/-- `isOutputRoom` from `fetch-unread.mjs`: `ROOM_TYPES.has(room?.type)` with
`ROOM_TYPES = {direct, group}`. -/
def isOutputRoom (room : RoomU) : Bool :=
  decide (room.type = "direct" ∨ room.type = "group")

/-- `roomHasNoBotMessages` from `fetch-unread.mjs`:
`!(room?.unreadMessages ?? []).some((m) => String(m?.personEmail ?? '').endsWith(BOT_EMAIL_SUFFIX))`. -/
def roomHasNoBotMessages (room : RoomU) : Bool :=
  !(room.unreadMessages.any (fun m => jsEndsWith (m.personEmail.getD "") BOT_EMAIL_SUFFIX))

/-- The Bot/Noise Filter stage of `main`:
`.filter(isOutputRoom).filter(roomHasNoBotMessages)`. -/
def botNoiseFilter (roomsWithMessages : List RoomU) : List RoomU :=
  (roomsWithMessages.filter isOutputRoom).filter roomHasNoBotMessages

/-- A group room whose unread messages mix one bot sender with one human
sender. -/
def mixedRoomC1 : RoomU :=
  { id := "rB", title := "rB", type := "group",
    lastActivityDate := .valid "da" 5000, lastSeenDate := .valid "ds" 1000,
    isUnread := true,
    unreadMessages :=
      [{ id := "b1", personId := some "bot1",
         personEmail := some "automation@webex.bot",
         created := .valid "c1" 2000, text := some "beep" },
       { id := "h1", personId := some "p1",
         personEmail := some "human@example.com",
         created := .valid "c2" 3000, text := some "hello" }],
    unreadMessageCount := 2, mentionedMe := false }

/-- C1 counterexample: a `group` room with one bot-suffix message and one
non-bot message — so *not* every retained unread message is from a bot, and
the claim says it is retained — is dropped by the Bot/Noise Filter, because
the code excludes a room as soon as *some* unread message has the bot
suffix. -/
theorem botNoiseFilter_drops_mixed_room :
    (mixedRoomC1.type = "group"
      ∧ ∃ m ∈ mixedRoomC1.unreadMessages,
          jsEndsWith (m.personEmail.getD "") BOT_EMAIL_SUFFIX = false)
    ∧ botNoiseFilter [mixedRoomC1] = [] := by
  refine ⟨⟨rfl, ?_⟩, by decide⟩
  decide

/-- C1 (amended): a room reaching the Bot/Noise Filter is retained iff its
type is allowed (`direct`/`group`) and **no** retained unread message's
`personEmail` ends with `@webex.bot`; equivalently it is dropped as soon as
*some* unread message carries the bot suffix, and a room with zero unread
messages is retained. -/
theorem botNoiseFilter_mem_iff (roomsWithMessages : List RoomU) (room : RoomU)
    (h : room ∈ roomsWithMessages) :
    (room ∈ botNoiseFilter roomsWithMessages ↔
      ((room.type = "direct" ∨ room.type = "group")
        ∧ ∀ m ∈ room.unreadMessages,
            jsEndsWith (m.personEmail.getD "") BOT_EMAIL_SUFFIX = false))
    ∧ (room.unreadMessages = [] → (room.type = "direct" ∨ room.type = "group") →
        room ∈ botNoiseFilter roomsWithMessages) := by
  have hiff : room ∈ botNoiseFilter roomsWithMessages ↔
      ((room.type = "direct" ∨ room.type = "group")
        ∧ ∀ m ∈ room.unreadMessages,
            jsEndsWith (m.personEmail.getD "") BOT_EMAIL_SUFFIX = false) := by
    simp only [botNoiseFilter, List.mem_filter, isOutputRoom, roomHasNoBotMessages,
      h, true_and, decide_eq_true_eq, Bool.not_eq_true', List.any_eq_false,
      Bool.and_eq_true, Bool.not_eq_true]
  refine ⟨hiff, fun hempty hty => hiff.mpr ⟨hty, ?_⟩⟩
  rw [hempty]
  intro m hm
  exact absurd hm (List.not_mem_nil m)

/-- An all-human group room used as the C1 witness. -/
def humanRoomC1 : RoomU :=
  { id := "rH", title := "rH", type := "group",
    lastActivityDate := .valid "da" 5000, lastSeenDate := .valid "ds" 1000,
    isUnread := true,
    unreadMessages :=
      [{ id := "h2", personId := some "p2",
         personEmail := some "someone@example.com",
         created := .valid "c3" 4000, text := some "hey" }],
    unreadMessageCount := 1, mentionedMe := false }

/-- Witness for the amended C1 at a concrete one-room list. -/
theorem botNoiseFilter_mem_iff_witness :
    humanRoomC1 ∈ [humanRoomC1]
    ∧ ((humanRoomC1 ∈ botNoiseFilter [humanRoomC1] ↔
        ((humanRoomC1.type = "direct" ∨ humanRoomC1.type = "group")
          ∧ ∀ m ∈ humanRoomC1.unreadMessages,
              jsEndsWith (m.personEmail.getD "") BOT_EMAIL_SUFFIX = false))
      ∧ (humanRoomC1.unreadMessages = [] →
          (humanRoomC1.type = "direct" ∨ humanRoomC1.type = "group") →
          humanRoomC1 ∈ botNoiseFilter [humanRoomC1])) :=
  ⟨List.Mem.head _, botNoiseFilter_mem_iff [humanRoomC1] humanRoomC1 (List.Mem.head _)⟩

/-- One step of `attachUnreadMessages` for one room, with the network fetch
outcome passed in as data: on success, attach the resolved unread messages,
their count and the mention flag; on failure, degrade to
`{unreadMessages: [], unreadMessageCount: 0, mentionedMe: false}`. -/
def attachOne (meId : Option String) : Room × Except String (List Message) → RoomU
  | (room, .ok fetched) =>
    let unreadMessages := getUnreadMessages fetched room meId
    { toRoom := room, unreadMessages := unreadMessages,
      unreadMessageCount := unreadMessages.length,
      mentionedMe := roomMentionsMe unreadMessages meId }
  | (room, .error _) =>
    { toRoom := room, unreadMessages := [], unreadMessageCount := 0,
      mentionedMe := false }

/-- `attachUnreadMessages` from `fetch-unread.mjs`: independent per-room
resolution over the whole unread-room list. -/
def attachUnreadMessages (meId : Option String)
    (jobs : List (Room × Except String (List Message))) : List RoomU :=
  jobs.map (attachOne meId)

/-- C4: a room whose message fetch fails is not dropped — the output list has
one entry per input room; at the failing position the room appears degraded
to `unreadMessages = []`, `unreadMessageCount = 0`, `mentionedMe = false`;
every other position depends only on its own room's fetch outcome; and the
degraded room passes `roomHasNoBotMessages` (it is not treated as
bot-only). -/
theorem attachUnreadMessages_degrades (meId : Option String)
    (jobs : List (Room × Except String (List Message))) (i : Nat) (room : Room)
    (e : String) (h : jobs[i]? = some (room, .error e)) :
    (attachUnreadMessages meId jobs).length = jobs.length
    ∧ (attachUnreadMessages meId jobs)[i]? =
        some { toRoom := room, unreadMessages := [], unreadMessageCount := 0,
               mentionedMe := false }
    ∧ (∀ (j : Nat) job, jobs[j]? = some job →
        (attachUnreadMessages meId jobs)[j]? = some (attachOne meId job))
    ∧ roomHasNoBotMessages
        { toRoom := room, unreadMessages := [], unreadMessageCount := 0,
          mentionedMe := false } = true := by
  refine ⟨by simp [attachUnreadMessages], ?_, ?_, rfl⟩
  · simp [attachUnreadMessages, List.getElem?_map, h, attachOne]
  · intro j job hj
    simp [attachUnreadMessages, List.getElem?_map, hj]

/-- Rooms and fetch outcomes for the C4 witness: the first room's fetch
succeeds, the second fails. -/
def jobsC4 : List (Room × Except String (List Message)) :=
  [({ id := "rA", title := "rA", type := "group",
      lastActivityDate := .valid "a" 2000, lastSeenDate := .missing,
      isUnread := true },
    .ok [{ id := "mA", personId := some "p", personEmail := some "x@example.com",
           created := .valid "c" 1500, text := some "hi" }]),
   ({ id := "rB4", title := "rB4", type := "direct",
      lastActivityDate := .valid "b" 2500, lastSeenDate := .missing,
      isUnread := true },
    .error "fetch failed")]

/-- The failing room of `jobsC4`. -/
def roomB4 : Room :=
  { id := "rB4", title := "rB4", type := "direct",
    lastActivityDate := .valid "b" 2500, lastSeenDate := .missing,
    isUnread := true }

/-- Witness for C4 at `jobsC4`, whose second fetch fails. -/
theorem attachUnreadMessages_degrades_witness :
    jobsC4[1]? = some (roomB4, .error "fetch failed")
    ∧ ((attachUnreadMessages (some "me-id") jobsC4).length = jobsC4.length
      ∧ (attachUnreadMessages (some "me-id") jobsC4)[1]? =
          some { toRoom := roomB4, unreadMessages := [], unreadMessageCount := 0,
                 mentionedMe := false }
      ∧ (∀ (j : Nat) job, jobsC4[j]? = some job →
          (attachUnreadMessages (some "me-id") jobsC4)[j]? =
            some (attachOne (some "me-id") job))
      ∧ roomHasNoBotMessages
          { toRoom := roomB4, unreadMessages := [], unreadMessageCount := 0,
            mentionedMe := false } = true) :=
  ⟨rfl, attachUnreadMessages_degrades (some "me-id") jobsC4 1 roomB4 "fetch failed" rfl⟩

/-- `inLastXhours` from `fetch-unread.mjs`, with `Date.now()` passed in:
`toTs(room.lastActivityDate) >= now - hours * 60 * 60 * 1000`. -/
def inLastXhours (now : Int) (room : Room) (hoursArg : Int) : Bool :=
  let activityFromMs := hoursArg * 60 * 60 * 1000
  let cutoff := now - activityFromMs
  decide (cutoff ≤ toTs room.lastActivityDate)

/-- `ROOM_TYPES.has` from `fetch-unread.mjs` (`ROOM_TYPES = {direct, group}`). -/
def roomTypesHas (t : String) : Bool :=
  decide (t = "direct" ∨ t = "group")

/-- The descending-activity comparator
`(a, b) => toTs(b.lastActivityDate) - toTs(a.lastActivityDate)`. -/
def byActivityDesc (a b : Room) : Bool :=
  decide (toTs b.lastActivityDate ≤ toTs a.lastActivityDate)

/-- The Activity Filter stage of `main` on normalized rooms:
`.filter((r) => ROOM_TYPES.has(r.type)).filter((r) => inLastXhours(r, activityHours))`
followed by the descending sort on `lastActivityDate`. -/
def activityFilter (now hoursVal : Int) (roomList : List Room) : List Room :=
  ((roomList.filter (fun r => roomTypesHas r.type)).filter
      (fun r => inLastXhours now r hoursVal)).mergeSort byActivityDesc

/-- A direct room whose `lastActivityDate` lies one hour in the future of
the run's `Date.now()` value `1700000000000`. -/
def futureRoomC5 : Room :=
  { id := "rf", title := "rf", type := "direct",
    lastActivityDate := .valid "df" 1700003600000, lastSeenDate := .missing,
    isUnread := true }

/-- C5 counterexample: with `now = 1700000000000` and a 1-hour window, a room
whose activity timestamp is *above* `now` (outside the claimed closed
interval `[now - window, now]`) is still retained — the code checks only the
lower bound. -/
theorem activityFilter_keeps_future_room :
    futureRoomC5 ∈ activityFilter 1700000000000 1 [futureRoomC5]
    ∧ ¬ (toTs futureRoomC5.lastActivityDate ≤ 1700000000000) := by
  constructor
  · rw [activityFilter, (List.mergeSort_perm _ byActivityDesc).mem_iff]
    decide
  · decide

/-- C5 (amended): the Activity Filter retains a room iff its type is
`direct` or `group` and `ts(lastActivityDate) ≥ now - window` — there is no
upper bound, so future timestamps pass; and whenever the cutoff
`now - window` is positive, a room with a missing/invalid timestamp
(`ts = 0`) is excluded. -/
theorem activityFilter_mem_iff (now hoursVal : Int) (roomList : List Room)
    (r : Room) (h : r ∈ roomList) :
    (r ∈ activityFilter now hoursVal roomList ↔
      ((r.type = "direct" ∨ r.type = "group")
        ∧ now - hoursVal * 60 * 60 * 1000 ≤ toTs r.lastActivityDate))
    ∧ (toTs r.lastActivityDate = 0 → 0 < now - hoursVal * 60 * 60 * 1000 →
        r ∉ activityFilter now hoursVal roomList) := by
  have hiff : r ∈ activityFilter now hoursVal roomList ↔
      ((r.type = "direct" ∨ r.type = "group")
        ∧ now - hoursVal * 60 * 60 * 1000 ≤ toTs r.lastActivityDate) := by
    rw [activityFilter, (List.mergeSort_perm _ byActivityDesc).mem_iff]
    simp only [List.mem_filter, h, true_and, roomTypesHas, inLastXhours,
      decide_eq_true_eq, Bool.and_eq_true]
  refine ⟨hiff, fun h0 hpos hmem => ?_⟩
  have hle := (hiff.mp hmem).2
  rw [h0] at hle
  omega

/-- A direct room with a missing activity date (`ts = 0`), for the C5
witness. -/
def staleRoomC5 : Room :=
  { id := "rs", title := "rs", type := "direct",
    lastActivityDate := .missing, lastSeenDate := .missing, isUnread := false }

/-- Witness for the amended C5: a missing-timestamp room is excluded by a
24-hour window at `now = 1700000000000`. -/
theorem activityFilter_mem_iff_witness :
    staleRoomC5 ∈ [staleRoomC5]
    ∧ ((staleRoomC5 ∈ activityFilter 1700000000000 24 [staleRoomC5] ↔
        ((staleRoomC5.type = "direct" ∨ staleRoomC5.type = "group")
          ∧ 1700000000000 - 24 * 60 * 60 * 1000 ≤ toTs staleRoomC5.lastActivityDate))
      ∧ (toTs staleRoomC5.lastActivityDate = 0 →
          (0 : Int) < 1700000000000 - 24 * 60 * 60 * 1000 →
          staleRoomC5 ∉ activityFilter 1700000000000 24 [staleRoomC5])) :=
  ⟨List.Mem.head _,
   activityFilter_mem_iff 1700000000000 24 [staleRoomC5] staleRoomC5 (List.Mem.head _)⟩

/-- `slimMessage` from `fetch-unread.mjs`, as a pure record update: remove
`roomId`, `personId`, `roomType`, `created`, `updated`; then if `markdown`
is non-null drop `text`; then if `html` is non-null drop both `markdown`
and `text`. -/
def slimMessage (message : Message) : Message :=
  let m1 := { message with roomId := none, personId := none, roomType := none,
                           created := .missing, updated := none }
  let m2 := if m1.markdown ≠ none then { m1 with text := none } else m1
  if m2.html ≠ none then { m2 with markdown := none, text := none } else m2

/-- C7: slimming is idempotent — a second application changes nothing — and
after one application the `roomId`/`personId`/`roomType`/`created`/`updated`
fields are gone and body-field precedence is resolved (`html` present forces
`markdown = text = none`; otherwise `markdown` present forces
`text = none`). -/
theorem slimMessage_idempotent (message : Message) :
    slimMessage (slimMessage message) = slimMessage message
    ∧ (slimMessage message).roomId = none
    ∧ (slimMessage message).personId = none
    ∧ (slimMessage message).roomType = none
    ∧ (slimMessage message).created = .missing
    ∧ (slimMessage message).updated = none
    ∧ ((slimMessage message).html ≠ none →
        (slimMessage message).markdown = none ∧ (slimMessage message).text = none)
    ∧ ((slimMessage message).markdown ≠ none → (slimMessage message).text = none) := by
  cases message with
  | mk id roomId personId roomType personEmail created updated text markdown html mp =>
    cases markdown <;> cases html <;>
      simp [slimMessage]

/-- The people index, modelled as an ordered association list (JavaScript's
`Object.create(null)` map with insertion-ordered string keys). -/
def peopleLookup (people : List (String × String)) (email : String) : Option String :=
  (people.find? (fun entry => decide (entry.1 = email))).map (fun entry => entry.2)

/-- One message's contribution step inside `buildPeopleAndSlimMessages`:
`if (email && pid && people[email] === undefined) people[email] = pid`. -/
def buildPeopleStep (people : List (String × String)) (message : Message) :
    List (String × String) :=
  if strTruthy message.personEmail = true ∧ strTruthy message.personId = true
      ∧ peopleLookup people (message.personEmail.getD "") = none then
    people ++ [(message.personEmail.getD "", message.personId.getD "")]
  else people

/-- `buildPeopleAndSlimMessages` from `fetch-unread.mjs` (its returned people
map; the in-place slimming side effect is `slimMessage`): iterate rooms in
output order and each room's `unreadMessages` in order. -/
def buildPeopleAndSlimMessages (roomsWithMessages : List RoomU) :
    List (String × String) :=
  roomsWithMessages.foldl
    (fun acc room => room.unreadMessages.foldl buildPeopleStep acc) []

/-- Whether a message contributes an entry under key `email`: truthy
`personEmail` equal to `email` and truthy `personId`. -/
def contributesFor (email : String) (message : Message) : Bool :=
  strTruthy message.personEmail && strTruthy message.personId &&
    decide (message.personEmail = some email)

/-- A truthy nullable string is a concrete non-empty string. -/
theorem strTruthy_some {s : Option String} (h : strTruthy s = true) :
    ∃ v, s = some v ∧ v ≠ "" := by
  cases s with
  | none => simp [strTruthy] at h
  | some v => exact ⟨v, rfl, by simpa [strTruthy] using h⟩

/-- Lookup distributes over appending entries. -/
theorem peopleLookup_append (acc extra : List (String × String)) (e : String) :
    peopleLookup (acc ++ extra) e = (peopleLookup acc e <|> peopleLookup extra e) := by
  rw [peopleLookup, List.find?_append]
  cases hfa : acc.find? (fun entry => decide (entry.1 = e)) <;>
    simp [peopleLookup, hfa]

/-- Lookup in a one-entry list. -/
theorem peopleLookup_singleton (k v e : String) :
    peopleLookup [(k, v)] e = if k = e then some v else none := by
  by_cases h : k = e <;> simp [peopleLookup, List.find?_cons, h]

/-- Effect of one `buildPeopleStep` on an arbitrary lookup key. -/
theorem peopleLookup_step (acc : List (String × String)) (m : Message) (e : String) :
    peopleLookup (buildPeopleStep acc m) e =
      (peopleLookup acc e <|> if contributesFor e m then m.personId else none) := by
  rw [buildPeopleStep]
  split
  · next hg =>
      obtain ⟨he, hp, hl⟩ := hg
      obtain ⟨em, hem, hemne⟩ := strTruthy_some he
      obtain ⟨pid, hpid, hpidne⟩ := strTruthy_some hp
      have harm : peopleLookup [(m.personEmail.getD "", m.personId.getD "")] e =
          (if contributesFor e m then m.personId else none) := by
        rw [hem, hpid]
        simp only [Option.getD_some, peopleLookup_singleton]
        by_cases hee : em = e
        · subst hee
          simp [contributesFor, hem, hpid, strTruthy, hemne, hpidne]
        · simp [contributesFor, hem, hpid, strTruthy, hee]
      rw [peopleLookup_append, harm]
  · next hg =>
      by_cases hc : contributesFor e m = true
      · have hparts : strTruthy m.personEmail = true ∧ strTruthy m.personId = true
            ∧ m.personEmail = some e := by
          simpa [contributesFor, Bool.and_eq_true, decide_eq_true_eq,
            and_assoc] using hc
        obtain ⟨hce, hcp, hcee⟩ := hparts
        have hl : peopleLookup acc (m.personEmail.getD "") ≠ none :=
          fun hno => hg ⟨hce, hcp, hno⟩
        rw [hcee] at hl
        simp only [Option.getD_some] at hl
        obtain ⟨v, hv⟩ := Option.ne_none_iff_exists'.mp hl
        rw [hv]
        simp
      · simp only [Bool.not_eq_true] at hc
        rw [hc]
        cases peopleLookup acc e <;> simp

/-- Folding messages through `buildPeopleStep` resolves a key to the first
contributing message's `personId`. -/
theorem peopleLookup_foldl (ms : List Message) (acc : List (String × String))
    (e : String) :
    peopleLookup (ms.foldl buildPeopleStep acc) e =
      (peopleLookup acc e <|>
        (ms.find? (contributesFor e)).bind (fun m => m.personId)) := by
  induction ms generalizing acc with
  | nil => cases hfa : peopleLookup acc e <;> simp [hfa]
  | cons m ms ih =>
      rw [List.foldl_cons, ih, peopleLookup_step]
      rcases hfa : peopleLookup acc e with _ | v
      · cases hc : contributesFor e m with
        | false => simp [List.find?_cons, hc]
        | true =>
            have hparts : strTruthy m.personEmail = true ∧ strTruthy m.personId = true
                ∧ m.personEmail = some e := by
              simpa [contributesFor, Bool.and_eq_true, decide_eq_true_eq,
                and_assoc] using hc
            obtain ⟨pid, hpid, _⟩ := strTruthy_some hparts.2.1
            simp [List.find?_cons, hc, hpid]
      · simp [List.find?_cons]

/-- A missing lookup means the key is not among the entry keys. -/
theorem peopleLookup_eq_none_iff (people : List (String × String)) (e : String) :
    peopleLookup people e = none ↔ e ∉ people.map Prod.fst := by
  rw [peopleLookup, Option.map_eq_none', List.find?_eq_none]
  simp only [decide_eq_true_eq, List.mem_map]
  constructor
  · rintro h ⟨entry, hmem, hfst⟩
    exact h entry hmem (by rw [hfst])
  · rintro h entry hmem hfst
    exact h ⟨entry, hmem, hfst⟩

/-- `buildPeopleStep` preserves distinctness of keys. -/
theorem buildPeopleStep_keys_nodup (acc : List (String × String)) (m : Message)
    (h : (acc.map Prod.fst).Nodup) :
    ((buildPeopleStep acc m).map Prod.fst).Nodup := by
  rw [buildPeopleStep]
  split
  · next hg =>
      obtain ⟨he, hp, hl⟩ := hg
      rw [List.map_append]
      simp only [List.map_cons, List.map_nil]
      rw [List.nodup_append]
      refine ⟨h, List.nodup_singleton _, ?_⟩
      intro a ha hb
      rw [List.mem_singleton] at hb
      subst hb
      exact (peopleLookup_eq_none_iff acc _).mp hl ha
  · exact h

/-- Folding a message list preserves distinctness of keys. -/
theorem peopleKeys_foldl_nodup (ms : List Message) (acc : List (String × String))
    (h : (acc.map Prod.fst).Nodup) :
    (((ms.foldl buildPeopleStep acc)).map Prod.fst).Nodup := by
  induction ms generalizing acc with
  | nil => exact h
  | cons m ms ih => exact ih _ (buildPeopleStep_keys_nodup acc m h)

/-- The nested room/message iteration equals a single fold over the
flattened, order-preserving message sequence. -/
theorem buildPeople_eq_flat (roomsWithMessages : List RoomU)
    (acc : List (String × String)) :
    roomsWithMessages.foldl
        (fun a room => room.unreadMessages.foldl buildPeopleStep a) acc =
      (roomsWithMessages.flatMap (fun room => room.unreadMessages)).foldl
        buildPeopleStep acc := by
  induction roomsWithMessages generalizing acc with
  | nil => rfl
  | cons r rs ih =>
      rw [List.foldl_cons, ih, List.flatMap_cons, List.foldl_append]

/-- C6 (amended): the people index has pairwise-distinct email keys, and the
value under any email is the `personId` of the **first** retained unread
message — in room-then-message order — whose `personEmail` equals that email
AND whose `personId` is itself present and non-empty; messages with a
null/absent/empty email or a null/absent/empty `personId` contribute
nothing. -/
theorem buildPeople_lookup_spec (roomsWithMessages : List RoomU) (e : String) :
    ((buildPeopleAndSlimMessages roomsWithMessages).map Prod.fst).Nodup
    ∧ peopleLookup (buildPeopleAndSlimMessages roomsWithMessages) e =
        ((roomsWithMessages.flatMap (fun room => room.unreadMessages)).find?
          (contributesFor e)).bind (fun m => m.personId) := by
  constructor
  · rw [buildPeopleAndSlimMessages, buildPeople_eq_flat]
    exact peopleKeys_foldl_nodup _ [] (by simp)
  · rw [buildPeopleAndSlimMessages, buildPeople_eq_flat, peopleLookup_foldl]
    simp [peopleLookup]

/-- A group room whose first message bearing the duplicated email has a null
`personId` and whose second message bearing it has one. -/
def dupEmailRoomC6 : RoomU :=
  { id := "r6", title := "r6", type := "group",
    lastActivityDate := .valid "a" 2000, lastSeenDate := .missing,
    isUnread := true,
    unreadMessages :=
      [{ id := "n1", personEmail := some "dup@example.com", personId := none,
         created := .valid "c1" 100, text := some "first" },
       { id := "n2", personEmail := some "dup@example.com", personId := some "pid2",
         created := .valid "c2" 200, text := some "second" }],
    unreadMessageCount := 2, mentionedMe := false }

/-- C6 counterexample: the first retained message bearing
`dup@example.com` has `personId = none`, yet the built index maps that email
to `pid2`, the `personId` of the *second* bearer — so the index value is not
the first bearer's `personId`. -/
theorem buildPeople_not_first_bearer :
    ((dupEmailRoomC6.unreadMessages.find?
        (fun m => decide (m.personEmail = some "dup@example.com"))).bind
          (fun m => m.personId) = none)
    ∧ peopleLookup (buildPeopleAndSlimMessages [dupEmailRoomC6]) "dup@example.com"
        = some "pid2" := by
  exact ⟨by decide, by decide⟩

/-- `DEFAULT_ACTIVITY_HOURS` from `fetch-unread.mjs`. -/
def DEFAULT_ACTIVITY_HOURS : Int := 24

/-- `MIN_ACTIVITY_HOURS` from `fetch-unread.mjs`. -/
def MIN_ACTIVITY_HOURS : Int := 1

/-- `MAX_ACTIVITY_HOURS` from `fetch-unread.mjs` (30 days). -/
def MAX_ACTIVITY_HOURS : Int := 720

/-- JavaScript `parseInt(s, 10)`: skip leading whitespace, take an optional
sign and then the longest digit prefix; `NaN` (modelled as `none`) when no
digit follows.  `parseInt` never yields a non-`NaN` infinite value, so
`Number.isFinite(n)` failing is exactly the `none` case. -/
def parseIntJs (s : String) : Option Int :=
  let cs := s.toList.dropWhile (fun c => decide (c = ' ' ∨ c = '\t' ∨ c = '\n' ∨ c = '\r'))
  let signAndRest : Bool × List Char :=
    match cs with
    | '-' :: t => (true, t)
    | '+' :: t => (false, t)
    | t => (false, t)
  let ds := signAndRest.2.takeWhile Char.isDigit
  if ds.isEmpty then none
  else
    let n : Int := Int.ofNat (ds.foldl (fun acc c => acc * 10 + (c.toNat - 48)) 0)
    some (if signAndRest.1 then -n else n)

/-- `getActivityHours` from `fetch-unread.mjs`:
`raw = cliHours ?? WEBEX_ACTIVITY_HOURS`; a nullish or empty `raw` gives the
default; then `parseInt(String(raw), 10)`; a non-finite or `< 1` result gives
the default; otherwise `min(n, 720)`. -/
def getActivityHours (cliHours envHours : Option String) : Int :=
  let raw := cliHours <|> envHours
  match raw with
  | none => DEFAULT_ACTIVITY_HOURS
  | some s =>
    if s = "" then DEFAULT_ACTIVITY_HOURS
    else
      match parseIntJs s with
      | none => DEFAULT_ACTIVITY_HOURS
      | some n =>
        if n < MIN_ACTIVITY_HOURS then DEFAULT_ACTIVITY_HOURS
        else min n MAX_ACTIVITY_HOURS

/-- C8 counterexample: the supplied value `"0"` clamped to `[1, 720]` would
be `1`, but the code returns the default `24` for any parsed value below the
minimum. -/
theorem getActivityHours_zero_not_clamped :
    getActivityHours (some "0") none = 24
    ∧ min (max (0 : Int) MIN_ACTIVITY_HOURS) MAX_ACTIVITY_HOURS = 1
    ∧ getActivityHours (some "0") none ≠
        min (max (0 : Int) MIN_ACTIVITY_HOURS) MAX_ACTIVITY_HOURS := by
  refine ⟨by decide, by decide, by decide⟩

/-- C8 (amended): with no supplied value the window is the default 24; a
supplied value parsing to `n ≥ 1` (via CLI, or via the environment when no
CLI value is given) yields `min n 720`; a supplied value parsing below 1
yields the **default 24**, not a clamp to 1. -/
theorem getActivityHours_spec (s : String) (n : Int) (envHours : Option String)
    (hp : parseIntJs s = some n) :
    getActivityHours none none = DEFAULT_ACTIVITY_HOURS
    ∧ (getActivityHours (some s) envHours =
        if n < MIN_ACTIVITY_HOURS then DEFAULT_ACTIVITY_HOURS
        else min n MAX_ACTIVITY_HOURS)
    ∧ (getActivityHours none (some s) =
        if n < MIN_ACTIVITY_HOURS then DEFAULT_ACTIVITY_HOURS
        else min n MAX_ACTIVITY_HOURS) := by
  have hne : s ≠ "" := by
    intro h
    subst h
    exact Option.noConfusion ((rfl : parseIntJs "" = none) ▸ hp)
  refine ⟨rfl, ?_, ?_⟩ <;> simp [getActivityHours, hne, hp]

/-- Witness for the amended C8 at the CLI value `"1000"`, which parses to
`1000` and is capped to `720`. -/
theorem getActivityHours_spec_witness :
    parseIntJs "1000" = some 1000
    ∧ (getActivityHours none none = DEFAULT_ACTIVITY_HOURS
      ∧ (getActivityHours (some "1000") none =
          if (1000 : Int) < MIN_ACTIVITY_HOURS then DEFAULT_ACTIVITY_HOURS
          else min 1000 MAX_ACTIVITY_HOURS)
      ∧ (getActivityHours none (some "1000") =
          if (1000 : Int) < MIN_ACTIVITY_HOURS then DEFAULT_ACTIVITY_HOURS
          else min 1000 MAX_ACTIVITY_HOURS)) :=
  ⟨by decide, getActivityHours_spec "1000" 1000 none (by decide)⟩

/-- `isEmail` from `send-message.mjs`: the recipient (always a string here)
is a person iff it contains `'@'`. -/
def isEmail (value : String) : Bool :=
  value.toList.contains '@'

/-- The target field of the single message-creation call. -/
inductive SendTarget where
  | personEmail : String → SendTarget
  | room : String → SendTarget
deriving DecidableEq, Repr

/-- The payload handed to the single `webex.messages.create` call. -/
structure SendPayload where
  target : SendTarget
  markdown : String
deriving DecidableEq, Repr

/-- The payload construction in `send-message.mjs` `main`:
`isEmail(to) ? { toPersonEmail: to, markdown } : { roomId: to, markdown }`. -/
def buildSendPayload (recipient markdown : String) : SendPayload :=
  if isEmail recipient then { target := .personEmail recipient, markdown := markdown }
  else { target := .room recipient, markdown := markdown }

/-- C9: for a non-empty recipient string, the classifier is exactly
"contains `'@'`", and the single submitted payload targets `toPersonEmail`
in the person case and `roomId` in the room case, with the markdown body
attached either way. -/
theorem buildSendPayload_spec (recipient markdown : String) (hne : recipient ≠ "") :
    (isEmail recipient = true ↔ '@' ∈ recipient.toList)
    ∧ (isEmail recipient = true →
        buildSendPayload recipient markdown =
          { target := .personEmail recipient, markdown := markdown })
    ∧ (isEmail recipient = false →
        buildSendPayload recipient markdown =
          { target := .room recipient, markdown := markdown })
    ∧ (buildSendPayload recipient markdown).markdown = markdown := by
  refine ⟨by simp [isEmail, List.contains, List.elem_iff], ?_, ?_, ?_⟩
  · intro h
    simp [buildSendPayload, h]
  · intro h
    simp [buildSendPayload, h]
  · rw [buildSendPayload]
    split <;> rfl

/-- Witness for C9 at the recipient `someone@example.com`. -/
theorem buildSendPayload_spec_witness :
    ("someone@example.com" : String) ≠ ""
    ∧ ((isEmail "someone@example.com" = true ↔
        '@' ∈ ("someone@example.com" : String).toList)
      ∧ (isEmail "someone@example.com" = true →
          buildSendPayload "someone@example.com" "hi" =
            { target := .personEmail "someone@example.com", markdown := "hi" })
      ∧ (isEmail "someone@example.com" = false →
          buildSendPayload "someone@example.com" "hi" =
            { target := .room "someone@example.com", markdown := "hi" })
      ∧ (buildSendPayload "someone@example.com" "hi").markdown = "hi") :=
  ⟨by decide, buildSendPayload_spec "someone@example.com" "hi" (by decide)⟩

end WebexSkill
